import Mathlib

/-!
Verification development for the webllm chat store (src/store.ts, final revision).

The TypeScript store is shallowly embedded: each method of `Store` that the
claims touch becomes a pure Lean function on an explicit `SessionState`
record.  JavaScript numbers are modelled as exact rationals (the claims never
depend on float rounding), JavaScript strings as Lean strings (a lone UTF-16
surrogate produced by a pathological escape is mapped to U+FFFD, a corner no
claim touches), `null`/`undefined` as `Option`, and JS truthiness by explicit
`jsTruthy` functions.  Asynchronous resolution order is made explicit: the
synchronous prefix of each method is one Lean function, and each
`then`/callback continuation is a separate state-transition function.
-/

namespace WebllmStore

/-- The JavaScript whitespace set used by `String.prototype.trim` and by the
regex class `\s`: WhiteSpace plus LineTerminator code points. -/
def isJsWhitespace (c : Char) : Bool :=
  c ∈ ['\t', '\n', '\u000b', '\u000c', '\r', ' ',
        '\u00a0', '\u1680', '\u2000', '\u2001', '\u2002', '\u2003',
        '\u2004', '\u2005', '\u2006', '\u2007', '\u2008', '\u2009',
        '\u200a', '\u2028', '\u2029', '\u202f', '\u205f', '\u3000',
        '\ufeff']

def dropLeadingWs : List Char → List Char
  | [] => []
  | c :: cs => if isJsWhitespace c then dropLeadingWs cs else c :: cs

/-- `String.prototype.trim()`: strip JS whitespace from both ends. -/
def jsTrimList (l : List Char) : List Char :=
  (dropLeadingWs ((dropLeadingWs l.reverse).reverse))

def jsTrim (s : String) : String :=
  ⟨jsTrimList s.data⟩

/-- Lowercase a string, as `String.prototype.toLowerCase` does for the ASCII
range relevant to the keyword checks in the progress callback. -/
def jsToLower (s : String) : String :=
  ⟨s.data.map Char.toLower⟩

/-- Substring scan underlying `String.prototype.includes`. -/
def listHasSub (pat : List Char) : List Char → Bool
  | [] => pat.isPrefixOf []
  | c :: cs => pat.isPrefixOf (c :: cs) || listHasSub pat cs

/-- `String.prototype.includes(pat)`. -/
def jsIncludes (s pat : String) : Bool :=
  listHasSub pat.data s.data

/-! ## JSON values (the result type of `JSON.parse`) -/

mutual

inductive Json where
  | null : Json
  | bool (b : Bool) : Json
  | num (q : Rat) : Json
  | str (s : String) : Json
  | arr (elems : JsonArr) : Json
  | obj (mems : JsonObj) : Json

inductive JsonArr where
  | nil : JsonArr
  | cons (hd : Json) (tl : JsonArr) : JsonArr

inductive JsonObj where
  | nil : JsonObj
  | cons (key : String) (val : Json) (tl : JsonObj) : JsonObj

end

/-- JS truthiness of a parsed JSON value (`if (parsedJson)`). -/
def jsTruthy : Json → Bool
  | .null => false
  | .bool b => b
  | .num q => decide (q ≠ 0)
  | .str s => decide (s ≠ "")
  | .arr _ => true
  | .obj _ => true

/-- `typeof v === \x27object\x27`: true for objects, arrays and null. -/
def typeofIsObject : Json → Bool
  | .null => true
  | .arr _ => true
  | .obj _ => true
  | _ => false

def objLookup : JsonObj → String → Option Json
  | .nil, _ => none
  | .cons k2 v tl, k => if k2 = k then some v else objLookup tl k

/-- JS property access `v.k` on a parsed JSON value: a named property is
`undefined` on primitives and arrays, and an object member lookup on objects. -/
def getProp (j : Json) (k : String) : Option Json :=
  match j with
  | .obj mems => objLookup mems k
  | _ => none

/-- Member insertion as performed by `JSON.parse` for duplicate keys: a later
duplicate overwrites the value but keeps the first occurrence position. -/
def objInsert : JsonObj → String → Json → JsonObj
  | .nil, k, v => .cons k v .nil
  | .cons k2 v2 tl, k, v =>
    if k2 = k then .cons k2 v tl else .cons k2 v2 (objInsert tl k v)

/-! ## `JSON.parse` (ECMA-404 grammar, fuel-based recursive descent) -/

/-- JSON insignificant whitespace (strictly smaller than the JS `trim` set). -/
def isJsonWs (c : Char) : Bool :=
  c = ' ' || c = '\t' || c = '\n' || c = '\r'

def skipJsonWs : List Char → List Char
  | [] => []
  | c :: cs => if isJsonWs c then skipJsonWs cs else c :: cs

def hexDigitVal : Char → Option Nat := fun c =>
  if c.isDigit then some (c.toNat - 48)
  else if 'a' ≤ c ∧ c ≤ 'f' then some (c.toNat - 87)
  else if 'A' ≤ c ∧ c ≤ 'F' then some (c.toNat - 55)
  else none

def parseHex4 : List Char → Option (Nat × List Char)
  | a :: b :: c :: d :: rest =>
    match hexDigitVal a, hexDigitVal b, hexDigitVal c, hexDigitVal d with
    | some va, some vb, some vc, some vd => some (((va * 16 + vb) * 16 + vc) * 16 + vd, rest)
    | _, _, _, _ => none
  | _ => none

/-- Is `n` a UTF-16 high surrogate code unit. -/
def isHighSurr (n : Nat) : Bool := 0xD800 ≤ n && n ≤ 0xDBFF

/-- Is `n` a UTF-16 low surrogate code unit. -/
def isLowSurr (n : Nat) : Bool := 0xDC00 ≤ n && n ≤ 0xDFFF

/-- Turn a `\uXXXX` code unit (with, for a high surrogate, the following
escape already decoded) into a scalar `Char`.  A lone surrogate, which a JS
string would keep as an unpaired code unit, is mapped to U+FFFD; no claim
depends on this corner. -/
def charOfUnit (n : Nat) : Char :=
  if n < 0xD800 ∨ (0xE000 ≤ n ∧ n < 0x110000) then Char.ofNat n else '�'

/-- Parse the body of a JSON string after the opening quote; returns the
decoded characters and the remainder after the closing quote. -/
def parseStrBody : Nat → List Char → Option (List Char × List Char)
  | 0, _ => none
  | _ + 1, [] => none
  | fuel + 1, c :: cs =>
    if c = '\"' then some ([], cs)
    else if c = '\\' then
      match cs with
      | [] => none
      | e :: cs2 =>
        if e = '\"' then (parseStrBody fuel cs2).map (fun p => ('\"' :: p.1, p.2))
        else if e = '\\' then (parseStrBody fuel cs2).map (fun p => ('\\' :: p.1, p.2))
        else if e = '/' then (parseStrBody fuel cs2).map (fun p => ('/' :: p.1, p.2))
        else if e = 'b' then (parseStrBody fuel cs2).map (fun p => ('\x08' :: p.1, p.2))
        else if e = 'f' then (parseStrBody fuel cs2).map (fun p => ('\x0c' :: p.1, p.2))
        else if e = 'n' then (parseStrBody fuel cs2).map (fun p => ('\n' :: p.1, p.2))
        else if e = 'r' then (parseStrBody fuel cs2).map (fun p => ('\r' :: p.1, p.2))
        else if e = 't' then (parseStrBody fuel cs2).map (fun p => ('\t' :: p.1, p.2))
        else if e = 'u' then
          match parseHex4 cs2 with
          | none => none
          | some (n, cs3) =>
            if isHighSurr n then
              match cs3 with
              | '\\' :: 'u' :: cs4 =>
                match parseHex4 cs4 with
                | some (n2, cs5) =>
                  if isLowSurr n2 then
                    let scalar := 0x10000 + (n - 0xD800) * 0x400 + (n2 - 0xDC00)
                    (parseStrBody fuel cs5).map (fun p => (charOfUnit scalar :: p.1, p.2))
                  else
                    (parseStrBody fuel cs3).map (fun p => (charOfUnit n :: p.1, p.2))
                | none => (parseStrBody fuel cs3).map (fun p => (charOfUnit n :: p.1, p.2))
              | _ => (parseStrBody fuel cs3).map (fun p => (charOfUnit n :: p.1, p.2))
            else
              (parseStrBody fuel cs3).map (fun p => (charOfUnit n :: p.1, p.2))
        else none
    else if c.toNat < 0x20 then none
    else (parseStrBody fuel cs).map (fun p => (c :: p.1, p.2))

def digitsVal (ds : List Char) : Nat :=
  ds.foldl (fun a c => a * 10 + (c.toNat - 48)) 0

/-- Parse a JSON number literal into an exact rational.  `JSON.parse` rounds
to the nearest float64; the claims never depend on that rounding. -/
def parseNumber (cs : List Char) : Option (Rat × List Char) :=
  let signSplit : Bool × List Char :=
    match cs with
    | '-' :: r => (true, r)
    | _ => (false, cs)
  let neg := signSplit.1
  let cs1 := signSplit.2
  match cs1 with
  | [] => none
  | c :: _ =>
    if ¬ c.isDigit then none
    else
      let ipSplit : List Char × List Char :=
        if c = '0' then (['0'], cs1.tail) else cs1.span Char.isDigit
      let ipart := ipSplit.1
      let rest1 := ipSplit.2
      let fracSplit : Option (List Char × List Char) :=
        match rest1 with
        | '.' :: r2 =>
          let p := r2.span Char.isDigit
          if p.1 = [] then none else some p
        | _ => some ([], rest1)
      match fracSplit with
      | none => none
      | some (fds, rest2) =>
        let expSplit : Option (Int × List Char) :=
          match rest2 with
          | e :: r3 =>
            if e = 'e' ∨ e = 'E' then
              let esign : Bool × List Char :=
                match r3 with
                | '+' :: r4 => (false, r4)
                | '-' :: r4 => (true, r4)
                | _ => (false, r3)
              let p := esign.2.span Char.isDigit
              if p.1 = [] then none
              else some (if esign.1 then -(digitsVal p.1 : Int) else (digitsVal p.1 : Int), p.2)
            else some (0, rest2)
          | [] => some (0, rest2)
        match expSplit with
        | none => none
        | some (ex, rest3) =>
          let base : Rat :=
            (digitsVal ipart : Rat) + (digitsVal fds : Rat) / ((10 : Rat) ^ fds.length)
          let scaled : Rat := base * (10 : Rat) ^ ex
          some (if neg then -scaled else scaled, rest3)

mutual

/-- Recursive-descent JSON value parser; skips leading whitespace itself. -/
def parseVal : Nat → List Char → Option (Json × List Char)
  | 0, _ => none
  | fuel + 1, cs0 =>
    let cs := skipJsonWs cs0
    match cs with
    | [] => none
    | c :: rest =>
      if c = 'n' then
        match rest with
        | 'u' :: 'l' :: 'l' :: r => some (.null, r)
        | _ => none
      else if c = 't' then
        match rest with
        | 'r' :: 'u' :: 'e' :: r => some (.bool true, r)
        | _ => none
      else if c = 'f' then
        match rest with
        | 'a' :: 'l' :: 's' :: 'e' :: r => some (.bool false, r)
        | _ => none
      else if c = '\"' then
        match parseStrBody (rest.length + 1) rest with
        | some (chars, r) => some (.str ⟨chars⟩, r)
        | none => none
      else if c = '\x5b' then
        let cs2 := skipJsonWs rest
        match cs2 with
        | '\x5d' :: r => some (.arr .nil, r)
        | _ => parseArrItems fuel cs2
      else if c = '\x7b' then
        let cs2 := skipJsonWs rest
        match cs2 with
        | '\x7d' :: r => some (.obj .nil, r)
        | _ => parseObjItems fuel cs2 .nil
      else
        (parseNumber (c :: rest)).map (fun p => (.num p.1, p.2))

/-- Comma-separated array items up to the closing bracket. -/
def parseArrItems : Nat → List Char → Option (Json × List Char)
  | 0, _ => none
  | fuel + 1, cs =>
    match parseVal fuel cs with
    | none => none
    | some (j, r) =>
      match skipJsonWs r with
      | ',' :: r2 =>
        match parseArrItems fuel r2 with
        | some (.arr tl, r3) => some (.arr (.cons j tl), r3)
        | _ => none
      | '\x5d' :: r2 => some (.arr (.cons j .nil), r2)
      | _ => none

/-- Comma-separated object members up to the closing brace, accumulating with
duplicate-key overwrite semantics. -/
def parseObjItems : Nat → List Char → JsonObj → Option (Json × List Char)
  | 0, _, _ => none
  | fuel + 1, cs, acc =>
    match skipJsonWs cs with
    | '\"' :: r =>
      match parseStrBody (r.length + 1) r with
      | none => none
      | some (keyChars, r2) =>
        match skipJsonWs r2 with
        | ':' :: r3 =>
          match parseVal fuel r3 with
          | none => none
          | some (v, r4) =>
            let acc2 := objInsert acc ⟨keyChars⟩ v
            match skipJsonWs r4 with
            | ',' :: r5 => parseObjItems fuel r5 acc2
            | '\x7d' :: r5 => some (.obj acc2, r5)
            | _ => none
        | _ => none
    | _ => none

end

/-- `JSON.parse`: whole-input parse, `none` models a thrown `SyntaxError`. -/
def jsonParse (s : String) : Option Json :=
  match parseVal (2 * s.data.length + 2) s.data with
  | some (j, rest) =>
    match skipJsonWs rest with
    | [] => some j
    | _ => none
  | none => none

/-! ## `JSON.stringify(value, null, 2)` -/

def natDigitsAux : Nat → Nat → List Char
  | 0, _ => []
  | f + 1, n =>
    if n < 10 then [Char.ofNat (48 + n)]
    else natDigitsAux f (n / 10) ++ [Char.ofNat (48 + n % 10)]

def natDigits (n : Nat) : List Char := natDigitsAux (n + 1) n

/-- Decimal expansion of a fractional part in `[0,1)`.  Every number produced
by `parseNumber` has a terminating expansion; the fuel covers that case. -/
def fracDigitsAux : Nat → Rat → List Char
  | 0, _ => []
  | f + 1, r =>
    if r = 0 then []
    else
      let r10 := r * 10
      let d := r10.floor
      Char.ofNat (48 + d.toNat) :: fracDigitsAux f (r10 - (d : Rat))

/-- Number-to-string: plain decimal notation.  (JS switches to exponent
notation outside `[1e-6, 1e21)`; no claim exercises that band.) -/
def jsNumChars (q : Rat) : List Char :=
  let sign : List Char := if q < 0 then ['-'] else []
  let a := |q|
  let ip := a.floor.toNat
  let fr := a - (a.floor : Rat)
  if fr = 0 then sign ++ natDigits ip
  else sign ++ natDigits ip ++ '.' :: fracDigitsAux 64 fr

def jsNumToString (q : Rat) : String := ⟨jsNumChars q⟩

def hexDigitChar (n : Nat) : Char :=
  if n < 10 then Char.ofNat (48 + n) else Char.ofNat (87 + n)

def hex4Chars (n : Nat) : List Char :=
  [hexDigitChar (n / 4096 % 16), hexDigitChar (n / 256 % 16),
   hexDigitChar (n / 16 % 16), hexDigitChar (n % 16)]

/-- Escaping of one character inside a stringified JSON string. -/
def escapeChar (c : Char) : List Char :=
  if c = '\"' then ['\\', '\"']
  else if c = '\\' then ['\\', '\\']
  else if c = '\x08' then ['\\', 'b']
  else if c = '\x0c' then ['\\', 'f']
  else if c = '\n' then ['\\', 'n']
  else if c = '\r' then ['\\', 'r']
  else if c = '\t' then ['\\', 't']
  else if c.toNat < 0x20 then '\\' :: 'u' :: hex4Chars c.toNat
  else [c]

def quoteJsonString (s : String) : List Char :=
  '\"' :: s.data.foldr (fun c acc => escapeChar c ++ acc) ['\"']

def indentChars (d : Nat) : List Char := List.replicate (2 * d) ' '

mutual

/-- `JSON.stringify(v, null, 2)` at nesting depth `d`. -/
def strValChars : Json → Nat → List Char
  | .null, _ => "null".data
  | .bool b, _ => if b then "true".data else "false".data
  | .num q, _ => jsNumChars q
  | .str s, _ => quoteJsonString s
  | .arr .nil, _ => "[]".data
  | .arr (.cons h t), d =>
    '\x5b' :: '\n' :: (strArrChars (.cons h t) (d + 1) ++ '\n' :: (indentChars d ++ ['\x5d']))
  | .obj .nil, _ => "\x7b\x7d".data
  | .obj (.cons k v t), d =>
    '\x7b' :: '\n' :: (strObjChars (.cons k v t) (d + 1) ++ '\n' :: (indentChars d ++ ['\x7d']))

def strArrChars : JsonArr → Nat → List Char
  | .nil, _ => []
  | .cons h .nil, d => indentChars d ++ strValChars h d
  | .cons h (.cons h2 t), d =>
    indentChars d ++ strValChars h d ++ ',' :: '\n' :: strArrChars (.cons h2 t) d

def strObjChars : JsonObj → Nat → List Char
  | .nil, _ => []
  | .cons k v .nil, d =>
    indentChars d ++ quoteJsonString k ++ ':' :: ' ' :: strValChars v d
  | .cons k v (.cons k2 v2 t), d =>
    indentChars d ++ quoteJsonString k ++ ':' :: ' ' :: strValChars v d
      ++ ',' :: '\n' :: strObjChars (.cons k2 v2 t) d

end

def jsonStringify2 (j : Json) : String := ⟨strValChars j 0⟩

/-! ## The response normalizer `#formatAndValidateJsonResponse` -/

/-- Remainder of `l` after the first occurrence of `pat`, if any. -/
def subAfter (pat : List Char) : List Char → Option (List Char)
  | [] => if pat.isPrefixOf ([] : List Char) then some [] else none
  | c :: cs =>
    if pat.isPrefixOf (c :: cs) then some ((c :: cs).drop pat.length)
    else subAfter pat cs

/-- Characters of `l` strictly before the first occurrence of `pat`, if any. -/
def takeBefore (pat : List Char) : List Char → Option (List Char)
  | [] => if pat.isPrefixOf ([] : List Char) then some [] else none
  | c :: cs =>
    if pat.isPrefixOf (c :: cs) then some []
    else (takeBefore pat cs).map (c :: ·)

/-- The markdown extraction regex from the source.  For the leftmost-match
semantics of the lazy pattern between two greedy whitespace runs, the first
capture group equals the JS-trimmed text between the first fence opener and
the first triple-backtick after it (and there is no match without both). -/
def extractFenced (s : String) : Option String :=
  match subAfter ("```json").data s.data with
  | none => none
  | some rest =>
    match takeBefore ("```").data rest with
    | none => none
    | some between => some ⟨jsTrimList between⟩

def classificationEnum : List String := ["QUESTION", "ACTION", "NOSENSE"]

/-- The shape validation of the parsed value, in source order:
object type, non-null, string `classification`, string `translation`,
`classification` in the three-way enum. -/
def isValidResp (j : Json) : Bool :=
  typeofIsObject j
  && (match j with | .null => false | _ => true)
  && (match getProp j "classification" with | some (.str _) => true | _ => false)
  && (match getProp j "translation" with | some (.str _) => true | _ => false)
  && (match getProp j "classification" with
      | some (.str c) => classificationEnum.contains c
      | _ => false)

/-- The `if (parsedJson)`-truthy tail of the normalizer. -/
def renderParsed (method : String) (j : Json) : String :=
  if isValidResp j then jsonStringify2 j
  else
    "Warning: Response structure mismatch (parsed with " ++ method
      ++ ").\nRaw JSON:\n" ++ jsonStringify2 j

def parseFailMsg (rawResponse : String) : String :=
  "Error: Could not parse AI response as valid JSON.\nRaw response:\n" ++ rawResponse

/-- `#formatAndValidateJsonResponse`: direct parse, then fenced-markdown
extraction, then shape validation; every branch yields a display string. -/
def formatAndValidateJsonResponse (rawResponse : String) : String :=
  let potentialJson := jsTrim rawResponse
  match jsonParse potentialJson with
  | some j =>
    if jsTruthy j then renderParsed "direct" j else parseFailMsg rawResponse
  | none =>
    match extractFenced potentialJson with
    | some g =>
      if g ≠ "" then
        match jsonParse (jsTrim g) with
        | some j =>
          if jsTruthy j then renderParsed "markdown" j else parseFailMsg rawResponse
        | none => parseFailMsg rawResponse
      else parseFailMsg rawResponse
    | none => parseFailMsg rawResponse

/-! ## Model catalog (`prepareModels` and its constants) -/

def DEFAULT_MODEL_ID : String := "Qwen2.5-1.5B-Instruct-q4f16_1-MLC"

def MAX_VRAM_MB_FILTER : Rat := 20000

def ALLOWED_QUANTIZATION_FILTER : String := "q4f16_1"

def MODEL_TYPE_FILTER : Nat := 1

/-- An entry of `webllm.prebuiltAppConfig.model_list`, restricted to the
fields the store reads. -/
structure RegistryEntry where
  model_id : String
  vram_required_MB : Option Rat
  model_type : Option Nat
deriving DecidableEq

structure AppModel where
  id : String
  displayName : String
deriving DecidableEq

/-- The sort key `(a?.vram_required_MB ?? 0)`. -/
def vramKey (m : RegistryEntry) : Rat := m.vram_required_MB.getD 0

/-- The filter predicate of `prepareModels`, with JS truthiness for the
first conjunct. -/
def modelFilterPred (m : RegistryEntry) : Bool :=
  match m.vram_required_MB with
  | none => false
  | some v =>
    decide (v ≠ 0) && decide (0 < v) && decide (v < MAX_VRAM_MB_FILTER)
      && decide (m.model_type ≠ some MODEL_TYPE_FILTER)
      && jsIncludes m.model_id ALLOWED_QUANTIZATION_FILTER

/-- The filter predicate as the claim words it: requirement present and
positive and under the ceiling, type tag not excluded, id contains the
quantization substring. -/
def modelClaimPred (m : RegistryEntry) : Bool :=
  match m.vram_required_MB with
  | none => false
  | some v =>
    decide (0 < v) && decide (v < MAX_VRAM_MB_FILTER)
      && decide (m.model_type ≠ some MODEL_TYPE_FILTER)
      && jsIncludes m.model_id ALLOWED_QUANTIZATION_FILTER

/-- Stable insertion step: an element is placed before the first strictly
greater key, hence after earlier elements with an equal key. -/
def insKey (a : RegistryEntry) : List RegistryEntry → List RegistryEntry
  | [] => [a]
  | b :: l => if vramKey a ≤ vramKey b then a :: b :: l else b :: insKey a l

/-- Stable insertion sort by ascending `vramKey`; models the (stable)
`Array.prototype.sort` with the numeric-difference comparator. -/
def isortKey : List RegistryEntry → List RegistryEntry
  | [] => []
  | a :: l => insKey a (isortKey l)

/-- The `.map` step of `prepareModels`. -/
def displayOf (m : RegistryEntry) : AppModel :=
  { id := m.model_id,
    displayName :=
      m.model_id ++ " (~"
        ++ (match m.vram_required_MB with
            | some v => jsNumToString v
            | none => "undefined")
        ++ "MB VRAM req.)" }

/-- `prepareModels`, as the source computes it: copy, stable sort by the
requirement key, then filter, then map. -/
def prepareModels (registry : List RegistryEntry) : List AppModel :=
  ((isortKey registry).filter modelFilterPred).map displayOf

/-- The claimed result: exactly the entries passing the predicate, stably
sorted by ascending requirement, then mapped. -/
def prepareModelsOrderedSpec (registry : List RegistryEntry) : List AppModel :=
  (isortKey (registry.filter modelClaimPred)).map displayOf

/-! ## Session state -/

def DEFAULT_SYSTEM_PROMPT : String :=
  "Your primary function is to classify the user\x27s input into one of three categories: \x27QUESTION\x27, \x27ACTION\x27, or \x27NOSENSE\x27.\n"
  ++ "\n"
  ++ "Definitions:\n"
  ++ "- QUESTION: The user is primarily asking for information, guidance, seeking clarification, definitions, facts, or asking about how to do something or something works.\n"
  ++ "- ACTION: The user is requesting to perform a task, like create a page or screen, add, remove or modify some components from existing screen, replace some UI fragment by some different one, etc.\n"
  ++ "- NOSENSE: The user\x27s input is gibberish, incoherent, lacks clear meaning, or doesn\x27t represent a question or an actionable request.\n"
  ++ "\n"
  ++ "Analyze the user\x27s prompt and determine its primary intent based on these definitions.\n"
  ++ "\n"
  ++ "You MUST respond ONLY with a valid JSON object containing the classification. Adhere strictly to the following JSON schema:\n"
  ++ "```json\n"
  ++ "\x7b\n"
  ++ "  \"type\": \"object\",\n"
  ++ "  \"properties\": \x7b\n"
  ++ "    \"classification\": \x7b \"type\": \"string\", \"description\": \"The classification of the user\x27s prompt.\", \"enum\": [\"QUESTION\", \"ACTION\", \"NOSENSE\"] \x7d,\n"
  ++ "    \"translation\":    \x7b \"type\": \"string\", \"description\": \"English translation of the user\x27s prompt.\" \x7d\n"
  ++ "  \x7d,\n"
  ++ "  \"required\": [\"classification\", \"translation\"],\n"
  ++ "  \"additionalProperties\": false\n"
  ++ "\x7d\n"
  ++ "```\n"

inductive ChatRole where
  | user
  | assistant
  | system
deriving DecidableEq

structure ChatMessage where
  role : ChatRole
  content : String
  executionTimeMs : Option Rat
deriving DecidableEq

structure GpuAdapterInfo where
  vendor : String
  architecture : String
deriving DecidableEq

/-- The observable fields of `Store`, plus three fields modelling the private
machinery: `worker` (is `#worker` non-null), `engine` (the identity of the
handle in `#engine`, if any), and the ghost list `unloaded` recording every
handle on which `unload()` has been called. -/
structure SessionState where
  models : List AppModel
  selectedModelId : String
  engineStatus : String
  engineProgress : Rat
  isGenerating : Bool
  messages : List ChatMessage
  modelLoadTimeMs : Option Rat
  systemPrompt : String
  isWebGPUSupported : Option Bool
  gpuAdapterInfo : Option GpuAdapterInfo
  estimatedDeviceMemoryGB : Option Rat
  selectedModelVramRequirementMB : Option Rat
  compatibilityError : Option String
  modelLoadError : Option String
  chatError : Option String
  workerError : Option String
  worker : Bool
  engine : Option Nat
  unloaded : List Nat
deriving DecidableEq

/-- JS truthiness of a `string | null` field. -/
def jsTruthyStrOpt : Option String → Bool
  | none => false
  | some s => decide (s ≠ "")

/-- `this.compatibilityError?.startsWith("Insufficient memory")`. -/
def startsWithInsufficient : Option String → Bool
  | none => false
  | some m => "Insufficient memory".data.isPrefixOf m.data

/-- Field values at construction time (worker assumed created successfully). -/
def initialState : SessionState where
  models := []
  selectedModelId := ""
  engineStatus := "Initializing..."
  engineProgress := 0
  isGenerating := false
  messages := []
  modelLoadTimeMs := none
  systemPrompt := DEFAULT_SYSTEM_PROMPT
  isWebGPUSupported := none
  gpuAdapterInfo := none
  estimatedDeviceMemoryGB := none
  selectedModelVramRequirementMB := none
  compatibilityError := none
  modelLoadError := none
  chatError := none
  workerError := none
  worker := true
  engine := none
  unloaded := []

/-! ## Progress callback -/

structure InitProgressReport where
  progress : Option Rat
  text : String

/-- Attempt of the regex body `(\d+)\/(\d+)\]` just after a `[`. -/
def bracketMatchAt (cs : List Char) : Option (Nat × Nat) :=
  match cs.span Char.isDigit with
  | (ds1, '/' :: r2) =>
    if ds1 = [] then none
    else
      match r2.span Char.isDigit with
      | (ds2, '\x5d' :: _) =>
        if ds2 = [] then none else some (digitsVal ds1, digitsVal ds2)
      | _ => none
  | _ => none

/-- Leftmost match of `/\[(\d+)\/(\d+)\]/`, scanning start positions left to
right as the regex engine does. -/
def bracketScan : List Char → Option (Nat × Nat)
  | [] => none
  | c :: cs =>
    if c = '\x5b' then
      match bracketMatchAt cs with
      | some p => some p
      | none => bracketScan cs
    else bracketScan cs

def parseBracketFraction (s : String) : Option (Nat × Nat) := bracketScan s.data

/-- One invocation of `initProgressCallback` created for load attempt
`selectedModel`, applied to the current state. -/
def initProgressCallback (selectedModel : String) (s : SessionState)
    (report : InitProgressReport) : SessionState :=
  if s.selectedModelId = selectedModel ∧ s.modelLoadTimeMs = none
      ∧ jsTruthyStrOpt s.modelLoadError = false then
    let s1 := { s with engineStatus := report.text }
    match report.progress with
    | some p => { s1 with engineProgress := p }
    | none =>
      match parseBracketFraction report.text with
      | some (cur, total) =>
        { s1 with engineProgress :=
            if 0 < total then min ((cur : Rat) / (total : Rat)) (99 / 100) else 0 }
      | none =>
        if jsIncludes (jsToLower report.text) "fetching" then
          { s1 with engineProgress := max s1.engineProgress (1 / 10) }
        else if jsIncludes (jsToLower report.text) "initializing" then
          { s1 with engineProgress := max s1.engineProgress (9 / 10) }
        else s1
  else s

/-! ## `loadModel` and engine lifecycle -/

/-- `Number.prototype.toFixed(0)`: nearest integer, ties toward the larger. -/
def jsToFixed0 (q : Rat) : String :=
  let n : Int := (q + 1 / 2).floor
  (if n < 0 then "-" else "") ++ (⟨natDigits n.natAbs⟩ : String)

def insufficientMemoryMsg (modelId : String) (requiredVramMB availableMemoryMB : Rat) : String :=
  "Insufficient memory" ++ " for " ++ modelId ++ ". Requires ~"
    ++ jsNumToString requiredVramMB
    ++ "MB, estimated available system RAM is ~" ++ jsToFixed0 availableMemoryMB
    ++ "MB. Select a smaller model."

/-- The synchronous body of `loadModel(modelId)` up to (and excluding) the
engine initialization it may start; the returned flag says whether
`#initializeEngine` was invoked. -/
def loadModel (registry : List RegistryEntry) (s : SessionState) (modelId : String) :
    SessionState × Bool :=
  if jsTruthyStrOpt s.compatibilityError && ! startsWithInsufficient s.compatibilityError then
    ({ s with engineStatus := "Cannot load model: " ++ s.compatibilityError.getD "" }, false)
  else if ! s.worker then
    ({ s with modelLoadError := some "Web Worker is not available.",
              engineStatus := "Error: Worker not initialized." }, false)
  else
    let badModel : SessionState × Bool :=
      ({ s with modelLoadError := some ("Model configuration error for " ++ modelId ++ "."),
                engineStatus := "Error: Invalid model selected.",
                selectedModelVramRequirementMB := none,
                compatibilityError :=
                  if startsWithInsufficient s.compatibilityError then none
                  else s.compatibilityError }, false)
    match (registry.find? (fun m => m.model_id = modelId)).bind (fun m => m.vram_required_MB) with
    | none => badModel
    | some v =>
      if v = 0 then badModel
      else
        let s1 := { s with
          selectedModelVramRequirementMB := some v,
          compatibilityError :=
            if startsWithInsufficient s.compatibilityError then none
            else s.compatibilityError }
        let commit : SessionState × Bool :=
          ({ s1 with modelLoadError := none, chatError := none,
                     selectedModelId := modelId,
                     engineStatus := "Loading " ++ modelId ++ "...",
                     engineProgress := 0,
                     messages := [],
                     modelLoadTimeMs := none,
                     isGenerating := false }, true)
        match s1.estimatedDeviceMemoryGB with
        | some g =>
          let availableMemoryMB := g * 1024
          if v > availableMemoryMB then
            ({ s1 with compatibilityError :=
                         some (insufficientMemoryMsg modelId v availableMemoryMB),
                       engineStatus := "Error: Insufficient Memory",
                       modelLoadError := none,
                       engineProgress := 0,
                       modelLoadTimeMs := none }, false)
          else commit
        | none => commit

/-- The synchronous head of `#initializeEngine`: release a previously owned
engine handle, if any, before awaiting engine creation. -/
def engineInitStart (s : SessionState) : SessionState :=
  match s.engine with
  | some h => { s with engine := none, unloaded := h :: s.unloaded }
  | none => s

/-- Resolution of the engine-creation promise of the attempt for
`attemptModel` with fresh handle `h`, immediately followed by the `.then`
continuation in `loadModel`: adopt and commit when still the current
selection with no error fields set, otherwise unload the fresh engine. -/
def engineCreateResolve (s : SessionState) (attemptModel : String) (h : Nat)
    (duration : Rat) : SessionState :=
  let s1 := { s with engine := some h }
  if s1.selectedModelId = attemptModel
      ∧ jsTruthyStrOpt s1.compatibilityError = false
      ∧ jsTruthyStrOpt s1.modelLoadError = false then
    { s1 with modelLoadTimeMs := some duration,
              engineStatus := attemptModel ++ " loaded. Ready.",
              engineProgress := 1,
              modelLoadError := none }
  else
    match s1.engine with
    | some hh => { s1 with unloaded := hh :: s1.unloaded }
    | none => s1

/-! ## `setSystemPrompt`, `sendMessage`, worker error handler -/

/-- `setSystemPrompt(prompt)`: the engine-context reset is fire-and-forget
and does not touch observable state. -/
def setSystemPrompt (s : SessionState) (prompt : String) : SessionState :=
  let newPrompt := jsTrim prompt
  if newPrompt ≠ s.systemPrompt then
    { s with systemPrompt := newPrompt, messages := [], chatError := none }
  else s

/-- The synchronous prefix of `sendMessage(usrPrompt)`: all pre-flight
guards, then the optimistic user-turn append; the flag says whether the
generation request was dispatched. -/
def sendMessageStart (s : SessionState) (usrPrompt : String) : SessionState × Bool :=
  if jsTruthyStrOpt s.compatibilityError then (s, false)
  else if jsTruthyStrOpt s.workerError then (s, false)
  else if jsTruthyStrOpt s.modelLoadError || s.engine.isNone || decide (s.engineProgress < 1) then
    (s, false)
  else
    let currentUsrPrompt := jsTrim usrPrompt
    if currentUsrPrompt = "" then (s, false)
    else if s.isGenerating then (s, false)
    else
      ({ s with isGenerating := true, chatError := none,
                messages := s.messages
                  ++ [{ role := .user, content := currentUsrPrompt, executionTimeMs := none }] },
       true)

/-- The event delivered to `worker.onerror`. -/
inductive WorkerErrorEvent where
  | errorEvent (message : String)
  | stringEvent (s : String)
  | otherEvent

/-- Message derivation in the `onerror` handler. -/
def workerErrorMsg : WorkerErrorEvent → String
  | .errorEvent m => m
  | .stringEvent s => s
  | .otherEvent => "An unknown error occurred in the Web Worker."

/-- The `worker.onerror` handler installed by `#initializeWorker`. -/
def workerOnError (s : SessionState) (ev : WorkerErrorEvent) : SessionState :=
  let errorMsg := workerErrorMsg ev
  let s1 := { s with workerError := some errorMsg,
                     engineStatus := "Worker Error. Check console.",
                     isGenerating := false,
                     engine := none }
  { s1 with compatibilityError :=
      if jsTruthyStrOpt s1.compatibilityError then s1.compatibilityError else s1.workerError }

/-! ## Helper lemmas -/

theorem ne_empty_of_data_ne {s : String} (h : s.data ≠ []) : s ≠ "" := by
  intro he
  subst he
  exact h rfl

theorem append_ne_empty_left (s t : String) (h : s ≠ "") : s ++ t ≠ "" := by
  apply ne_empty_of_data_ne
  rw [String.data_append]
  intro hc
  exact h (String.ext (List.append_eq_nil.mp hc).1)

theorem natDigitsAux_ne_nil (f n : Nat) : natDigitsAux (f + 1) n ≠ [] := by
  unfold natDigitsAux
  split <;> simp

theorem natDigits_ne_nil (n : Nat) : natDigits n ≠ [] := natDigitsAux_ne_nil n n

theorem jsNumChars_ne_nil (q : Rat) : jsNumChars q ≠ [] := by
  simp only [jsNumChars]
  split <;> split <;> simp [natDigits_ne_nil]

theorem strValChars_ne_nil (j : Json) (d : Nat) : strValChars j d ≠ [] := by
  cases j with
  | null => unfold strValChars; decide
  | bool b => cases b <;> (unfold strValChars; decide)
  | num q => unfold strValChars; exact jsNumChars_ne_nil q
  | str s => unfold strValChars quoteJsonString; simp
  | arr elems =>
    cases elems with
    | nil => unfold strValChars; decide
    | cons h t => unfold strValChars; simp
  | obj mems =>
    cases mems with
    | nil => unfold strValChars; decide
    | cons k v t => unfold strValChars; simp

theorem jsonStringify2_ne_empty (j : Json) : jsonStringify2 j ≠ "" :=
  ne_empty_of_data_ne (strValChars_ne_nil j 0)

theorem renderParsed_ne_empty (m : String) (j : Json) : renderParsed m j ≠ "" := by
  unfold renderParsed
  split
  · exact jsonStringify2_ne_empty j
  · apply append_ne_empty_left
    apply append_ne_empty_left
    apply append_ne_empty_left
    decide

theorem parseFailMsg_ne_empty (raw : String) : parseFailMsg raw ≠ "" := by
  unfold parseFailMsg
  exact append_ne_empty_left _ _ (by decide)

/-! ## Claim theorems -/

/-- C4: for every string input (including the empty string, non-JSON text,
malformed JSON, valid JSON of the wrong shape, and fenced JSON blocks with or
without surrounding prose), `#formatAndValidateJsonResponse` returns a
non-empty string; as a total Lean function of the embedded cascade it can
never throw. -/
theorem normalizer_total_nonempty (rawResponse : String) :
    formatAndValidateJsonResponse rawResponse ≠ "" := by
  simp only [formatAndValidateJsonResponse]
  repeat' split
  all_goals first
    | apply renderParsed_ne_empty
    | apply parseFailMsg_ne_empty

/-- C7: on the raw input `JSON.stringify({classification:"QUESTION",
translation:"hi"})`, the normalizer returns the 2-space pretty-printed
serialization of that exact object. -/
theorem normalizer_round_trip :
    formatAndValidateJsonResponse
        "\x7b\"classification\":\"QUESTION\",\"translation\":\"hi\"\x7d"
      = jsonStringify2 (Json.obj (.cons "classification" (.str "QUESTION")
          (.cons "translation" (.str "hi") .nil)))
    ∧ jsonStringify2 (Json.obj (.cons "classification" (.str "QUESTION")
          (.cons "translation" (.str "hi") .nil)))
      = "\x7b\n  \"classification\": \"QUESTION\",\n  \"translation\": \"hi\"\n\x7d" := by
  constructor <;> rfl

/-- C6: while `isGenerating` is true, every `sendMessage` call returns before
any state mutation: the state is returned unchanged and no generation request
is dispatched. -/
theorem sendMessage_single_flight (s : SessionState) (usrPrompt : String)
    (h : s.isGenerating = true) :
    sendMessageStart s usrPrompt = (s, false) := by
  unfold sendMessageStart
  repeat' split <;> simp_all

/-- Witness for C6 at a concrete generating state and input. -/
theorem sendMessage_single_flight_witness :
    ({ initialState with isGenerating := true } : SessionState).isGenerating = true
    ∧ sendMessageStart { initialState with isGenerating := true } "hello"
        = ({ initialState with isGenerating := true }, false) :=
  ⟨rfl, sendMessage_single_flight _ _ rfl⟩

/-- Concrete state shared by the C5 artifacts: the freshly constructed store
with one chat message appended. -/
def c5State : SessionState :=
  { initialState with
      messages := [{ role := ChatRole.user, content := "hola", executionTimeMs := none }] }

/-- C5 counterexample: the stored initial prompt ends in a newline, so a call
whose trimmed input coincides with the trimmed stored prompt is, contrary to
the claim, not a no-op — the comparison is against the stored prompt
verbatim, and the messages list gets cleared. -/
theorem dropLeadingWs_head (l : List Char) :
    ∀ c cs, dropLeadingWs l = c :: cs → isJsWhitespace c = false := by
  induction l with
  | nil => intro c cs h; exact absurd h (by simp [dropLeadingWs])
  | cons a l ih =>
    intro c cs h
    simp only [dropLeadingWs] at h
    by_cases ha : isJsWhitespace a = true
    · rw [if_pos ha] at h
      exact ih c cs h
    · rw [if_neg ha] at h
      injection h with h1 h2
      subst h1
      simpa using ha

theorem dropLeadingWs_getLast (l : List Char) (hne : dropLeadingWs l ≠ []) :
    (dropLeadingWs l).getLast? = l.getLast? := by
  induction l with
  | nil => simp [dropLeadingWs] at hne
  | cons a l ih =>
    simp only [dropLeadingWs] at hne ⊢
    by_cases ha : isJsWhitespace a = true
    · rw [if_pos ha] at hne ⊢
      have hlne : l ≠ [] := by
        intro h0
        subst h0
        simp [dropLeadingWs] at hne
      rw [ih hne]
      cases l with
      | nil => exact absurd rfl hlne
      | cons b t => rw [List.getLast?_cons_cons]
    · rw [if_neg ha]

theorem jsTrimList_getLast_not_ws (l : List Char) (c : Char)
    (h : (jsTrimList l).getLast? = some c) : isJsWhitespace c = false := by
  unfold jsTrimList at h
  have hne : dropLeadingWs ((dropLeadingWs l.reverse).reverse) ≠ [] := by
    intro h0
    rw [h0] at h
    cases h
  rw [dropLeadingWs_getLast _ hne, List.getLast?_reverse] at h
  cases hm : dropLeadingWs l.reverse with
  | nil => rw [hm] at h; cases h
  | cons a t =>
    rw [hm] at h
    simp only [List.head?_cons] at h
    injection h with h1
    subst h1
    exact dropLeadingWs_head l.reverse a t hm

theorem default_prompt_getLast :
    DEFAULT_SYSTEM_PROMPT.data.getLast? = some '\n' := by
  unfold DEFAULT_SYSTEM_PROMPT
  simp only [String.data_append, List.getLast?_append]
  decide

theorem jsTrim_getLast_not_ws (s : String) (c : Char)
    (h : (jsTrim s).data.getLast? = some c) : isJsWhitespace c = false := by
  have h2 : (jsTrimList s.data).getLast? = some c := h
  exact jsTrimList_getLast_not_ws s.data c h2

/-- The stored initial prompt is not trim-normal: it ends in a newline. -/
theorem trim_default_ne : jsTrim DEFAULT_SYSTEM_PROMPT ≠ DEFAULT_SYSTEM_PROMPT := by
  intro he
  have hlast : (jsTrim DEFAULT_SYSTEM_PROMPT).data.getLast? = some '\n' := by
    rw [he]
    exact default_prompt_getLast
  have hws := jsTrim_getLast_not_ws _ _ hlast
  have ht : isJsWhitespace '\n' = true := by decide
  rw [ht] at hws
  exact Bool.noConfusion hws

/-- C5 counterexample: starting from the freshly constructed store (whose
prompt ends in a newline) with one message, a `setSystemPrompt` call whose
trimmed input equals the trimmed stored prompt is not a no-op: the code
compares against the stored prompt verbatim and clears the messages. -/
theorem setSystemPrompt_trim_cex :
    jsTrim DEFAULT_SYSTEM_PROMPT = jsTrim c5State.systemPrompt
    ∧ c5State.messages ≠ []
    ∧ (setSystemPrompt c5State DEFAULT_SYSTEM_PROMPT).messages = []
    ∧ (setSystemPrompt c5State DEFAULT_SYSTEM_PROMPT).systemPrompt ≠ c5State.systemPrompt := by
  have hsp : c5State.systemPrompt = DEFAULT_SYSTEM_PROMPT := rfl
  have hstep : setSystemPrompt c5State DEFAULT_SYSTEM_PROMPT
      = { c5State with systemPrompt := jsTrim DEFAULT_SYSTEM_PROMPT,
                       messages := [], chatError := none } := by
    simp [setSystemPrompt, hsp, trim_default_ne]
  refine ⟨rfl, by decide, ?_, ?_⟩
  · rw [hstep]
  · rw [hstep]
    show jsTrim DEFAULT_SYSTEM_PROMPT ≠ c5State.systemPrompt
    rw [hsp]
    exact trim_default_ne

/-- C5 amended: `setSystemPrompt` trims its input but compares it with the
stored `systemPrompt` verbatim (not with its trimmed form): it is a no-op
exactly when the trimmed input equals the stored prompt, and otherwise
replaces the prompt with the trimmed input and clears `messages` and
`chatError`. -/
theorem setSystemPrompt_verbatim_compare (s : SessionState) (text : String) :
    (jsTrim text = s.systemPrompt → setSystemPrompt s text = s)
    ∧ (jsTrim text ≠ s.systemPrompt →
        setSystemPrompt s text
          = { s with systemPrompt := jsTrim text, messages := [], chatError := none }) := by
  constructor <;> intro h <;> simp [setSystemPrompt, h]

/-- Witness for the amended C5 at a concrete differing prompt. -/
theorem setSystemPrompt_verbatim_compare_witness :
    (setSystemPrompt { initialState with systemPrompt := "old" } "new prompt").messages = []
    ∧ (setSystemPrompt { initialState with systemPrompt := "old" } "new prompt").systemPrompt
        = "new prompt" := by
  have h := (setSystemPrompt_verbatim_compare { initialState with systemPrompt := "old" }
    "new prompt").2 (by decide)
  constructor
  · rw [h]
  · rw [h]
    decide

/-- C10: the shape validation accepts any parsed JSON object whose
`classification` is one of the three enum strings and whose `translation` is
a string, regardless of additional members, and for such values the
normalizer returns the pretty-printed object (extra members included) rather
than the structure-mismatch warning — the schema constraint
`additionalProperties: false` announced in the prompt is not enforced. -/
theorem shape_validation_ignores_extra (props : JsonObj) (c t : String)
    (h1 : objLookup props "classification" = some (.str c))
    (h2 : c = "QUESTION" ∨ c = "ACTION" ∨ c = "NOSENSE")
    (h3 : objLookup props "translation" = some (.str t)) :
    isValidResp (Json.obj props) = true
    ∧ ∀ method, renderParsed method (Json.obj props) = jsonStringify2 (Json.obj props) := by
  have hv : isValidResp (Json.obj props) = true := by
    simp only [isValidResp, typeofIsObject, getProp, h1, h3]
    rcases h2 with rfl | rfl | rfl <;> decide
  refine ⟨hv, fun method => ?_⟩
  simp [renderParsed, hv]

/-- Witness for C10: an object carrying an extra member next to the two
required fields is accepted and pretty-printed. -/
theorem shape_validation_ignores_extra_witness :
    isValidResp (Json.obj (.cons "classification" (.str "ACTION")
        (.cons "translation" (.str "x") (.cons "extra" (.num 1) .nil)))) = true
    ∧ renderParsed "direct" (Json.obj (.cons "classification" (.str "ACTION")
        (.cons "translation" (.str "x") (.cons "extra" (.num 1) .nil))))
      = jsonStringify2 (Json.obj (.cons "classification" (.str "ACTION")
        (.cons "translation" (.str "x") (.cons "extra" (.num 1) .nil)))) := by
  have h := shape_validation_ignores_extra
    (.cons "classification" (.str "ACTION")
      (.cons "translation" (.str "x") (.cons "extra" (.num 1) .nil)))
    "ACTION" "x" rfl (Or.inr (Or.inl rfl)) rfl
  exact ⟨h.1, h.2 "direct"⟩

/-- Packaging of the non-emptiness requirement on a stored compatibility
error: every message the store ever assigns to `compatibilityError` is a
non-empty literal or a non-empty-prefixed template. -/
theorem someNeOfNe {w : String} (hw : w ≠ "") :
    ∀ m, (some w : Option String) = some m → m ≠ "" := by
  intro m hm
  injection hm with h
  subst h
  exact hw

/-- C9: the worker `onerror` handler records the derived message in
`workerError`, clears `isGenerating`, drops the engine handle, and promotes
the message into `compatibilityError` only when no compatibility error was
present; a pre-existing (non-empty) compatibility error is never
overwritten. -/
theorem worker_error_handler (s : SessionState) (ev : WorkerErrorEvent)
    (hne : ∀ m, s.compatibilityError = some m → m ≠ "") :
    (workerOnError s ev).workerError = some (workerErrorMsg ev)
    ∧ (workerOnError s ev).isGenerating = false
    ∧ (workerOnError s ev).engine = none
    ∧ (s.compatibilityError = none →
        (workerOnError s ev).compatibilityError = some (workerErrorMsg ev))
    ∧ (∀ m, s.compatibilityError = some m →
        (workerOnError s ev).compatibilityError = some m) := by
  unfold workerOnError
  cases hc : s.compatibilityError with
  | none => simp [jsTruthyStrOpt, hc]
  | some m =>
    have hm := hne m hc
    simp [jsTruthyStrOpt, hc, hm]

/-- Witness for C9: a worker error with a pre-existing compatibility error
(left intact) and one on a clean state (promoted). -/
theorem worker_error_handler_witness :
    (workerOnError { initialState with
        compatibilityError := some "Insufficient memory detected" }
      (.errorEvent "boom")).compatibilityError = some "Insufficient memory detected"
    ∧ (workerOnError initialState (.errorEvent "boom")).compatibilityError = some "boom"
    ∧ (workerOnError initialState (.errorEvent "boom")).workerError = some "boom"
    ∧ (workerOnError initialState (.errorEvent "boom")).isGenerating = false
    ∧ (workerOnError initialState (.errorEvent "boom")).engine = none := by
  have h1 := worker_error_handler
    { initialState with compatibilityError := some "Insufficient memory detected" }
    (.errorEvent "boom") (someNeOfNe (by decide))
  have h2 := worker_error_handler initialState (.errorEvent "boom")
    (fun m hm => Option.noConfusion hm)
  exact ⟨h1.2.2.2.2 _ rfl, h2.2.2.2.1 rfl, h2.1, h2.2.1, h2.2.2.1⟩

/-- C1 counterexample: with explicit numeric progress fields the callback
assigns the value verbatim, so a later invocation in the same (still
current) load attempt can decrease `engineProgress`: here 0.5 then 0.3. -/
theorem progress_can_decrease_cex :
    (initProgressCallback "m" { initialState with selectedModelId := "m" }
        { progress := some (1 / 2), text := "loading shard" }).engineProgress = 1 / 2
    ∧ (initProgressCallback "m"
        (initProgressCallback "m" { initialState with selectedModelId := "m" }
          { progress := some (1 / 2), text := "loading shard" })
        { progress := some (3 / 10), text := "loading shard" }).engineProgress = 3 / 10
    ∧ (initProgressCallback "m"
        (initProgressCallback "m" { initialState with selectedModelId := "m" }
          { progress := some (1 / 2), text := "loading shard" })
        { progress := some (3 / 10), text := "loading shard" }).engineProgress
      < (initProgressCallback "m" { initialState with selectedModelId := "m" }
          { progress := some (1 / 2), text := "loading shard" }).engineProgress := by
  refine ⟨rfl, rfl, ?_⟩
  show (3 / 10 : Rat) < 1 / 2
  norm_num

/-- C1 amended: when the engine supplies no explicit numeric progress value,
a callback invocation without a bracketed current/total pattern in its text
never decreases `engineProgress` (the keyword floors are applied with `max`),
and no invocation without an explicit numeric value can set `engineProgress`
to exactly 1 unless it already was 1 (text-parsed progress is capped at
0.99, or set to 0 for a zero total); an explicit numeric progress value is
assigned verbatim and may decrease progress or equal 1. -/
theorem progress_callback_amended (sel : String) (s : SessionState)
    (r : InitProgressReport) (h : r.progress = none) :
    (parseBracketFraction r.text = none →
      s.engineProgress ≤ (initProgressCallback sel s r).engineProgress)
    ∧ ((initProgressCallback sel s r).engineProgress = 1 → s.engineProgress = 1) := by
  by_cases hg : (s.selectedModelId = sel ∧ s.modelLoadTimeMs = none
      ∧ jsTruthyStrOpt s.modelLoadError = false)
  · simp only [initProgressCallback, if_pos hg, h]
    cases hb : parseBracketFraction r.text with
    | none =>
      simp only [hb]
      by_cases hf : jsIncludes (jsToLower r.text) "fetching" = true
      · simp only [if_pos hf]
        constructor
        · intro _
          exact le_max_left _ _
        · intro h1
          have h1x : max s.engineProgress (1 / 10 : Rat) = 1 := h1
          rcases max_choice s.engineProgress (1 / 10 : Rat) with hm | hm
          · rw [hm] at h1x; exact h1x
          · rw [hm] at h1x; norm_num at h1x
      · simp only [if_neg hf]
        by_cases hi : jsIncludes (jsToLower r.text) "initializing" = true
        · simp only [if_pos hi]
          constructor
          · intro _
            exact le_max_left _ _
          · intro h1
            have h1x : max s.engineProgress (9 / 10 : Rat) = 1 := h1
            rcases max_choice s.engineProgress (9 / 10 : Rat) with hm | hm
            · rw [hm] at h1x; exact h1x
            · rw [hm] at h1x; norm_num at h1x
        · simp only [if_neg hi]
          exact ⟨fun _ => le_refl _, fun h1 => h1⟩
    | some p =>
      obtain ⟨cur, total⟩ := p
      simp only [hb]
      constructor
      · intro hnone
        exact Option.noConfusion hnone
      · intro h1
        have h1x : (if 0 < total then min ((cur : Rat) / (total : Rat)) (99 / 100) else 0)
            = 1 := h1
        by_cases ht : 0 < total
        · rw [if_pos ht] at h1x
          have hle := min_le_right ((cur : Rat) / (total : Rat)) (99 / 100 : Rat)
          rw [h1x] at hle
          norm_num at hle
        · rw [if_neg ht] at h1x
          norm_num at h1x
  · simp only [initProgressCallback, if_neg hg]
    exact ⟨fun _ => le_refl _, fun h1 => h1⟩

/-- Witness for the amended C1 at a concrete keyword-only report. -/
theorem progress_callback_amended_witness :
    ({ initialState with selectedModelId := "m" } : SessionState).engineProgress
      ≤ (initProgressCallback "m" { initialState with selectedModelId := "m" }
          { progress := none, text := "Fetching model" }).engineProgress :=
  (progress_callback_amended "m" _ _ rfl).1 (by decide)

/-- The insufficient-memory message carries its fixed prefix. -/
theorem startsWithInsufficient_of_msg (id : String) (v a : Rat) :
    startsWithInsufficient (some (insufficientMemoryMsg id v a)) = true := by
  unfold startsWithInsufficient insufficientMemoryMsg
  rw [List.isPrefixOf_iff_prefix]
  simp only [String.data_append, List.append_assoc]
  exact List.prefix_append _ _

/-- C3: on a `loadModel` call that resolves its model while device memory is
known and the requirement exceeds memory×1024, the store records an
"Insufficient memory"-prefixed compatibility error, resets `engineProgress`
to 0 and `modelLoadTimeMs` to null, and does not start engine
initialization. -/
theorem vram_gate_blocks_load
    (registry : List RegistryEntry) (s : SessionState) (modelId : String) (v g : Rat)
    (hguard : (jsTruthyStrOpt s.compatibilityError
                && ! startsWithInsufficient s.compatibilityError) = false)
    (hworker : s.worker = true)
    (hfind : (registry.find? (fun m => m.model_id = modelId)).bind
               (fun m => m.vram_required_MB) = some v)
    (hv : v ≠ 0)
    (hmem : s.estimatedDeviceMemoryGB = some g)
    (hgt : v > g * 1024) :
    (loadModel registry s modelId).2 = false
    ∧ (loadModel registry s modelId).1.compatibilityError
        = some (insufficientMemoryMsg modelId v (g * 1024))
    ∧ startsWithInsufficient (loadModel registry s modelId).1.compatibilityError = true
    ∧ (loadModel registry s modelId).1.engineProgress = 0
    ∧ (loadModel registry s modelId).1.modelLoadTimeMs = none := by
  have hmain : loadModel registry s modelId
      = ({ s with selectedModelVramRequirementMB := some v,
                  compatibilityError := some (insufficientMemoryMsg modelId v (g * 1024)),
                  engineStatus := "Error: Insufficient Memory",
                  modelLoadError := none,
                  engineProgress := 0,
                  modelLoadTimeMs := none }, false) := by
    simp only [loadModel, hguard, hworker, hfind, hmem]
    simp [hv, hgt]
  rw [hmain]
  exact ⟨rfl, rfl, startsWithInsufficient_of_msg modelId v (g * 1024), rfl, rfl⟩

/-- Witness for C3: the P6 scenario — 4GB estimated memory, a model
requiring 5000MB. -/
theorem vram_gate_blocks_load_witness :
    (loadModel [⟨"big-q4f16_1-MLC", some 5000, some 0⟩]
        { initialState with estimatedDeviceMemoryGB := some 4 } "big-q4f16_1-MLC").2 = false
    ∧ startsWithInsufficient (loadModel [⟨"big-q4f16_1-MLC", some 5000, some 0⟩]
        { initialState with estimatedDeviceMemoryGB := some 4 }
        "big-q4f16_1-MLC").1.compatibilityError = true
    ∧ (loadModel [⟨"big-q4f16_1-MLC", some 5000, some 0⟩]
        { initialState with estimatedDeviceMemoryGB := some 4 }
        "big-q4f16_1-MLC").1.engineProgress = 0
    ∧ (loadModel [⟨"big-q4f16_1-MLC", some 5000, some 0⟩]
        { initialState with estimatedDeviceMemoryGB := some 4 }
        "big-q4f16_1-MLC").1.modelLoadTimeMs = none := by
  have h := vram_gate_blocks_load [⟨"big-q4f16_1-MLC", some 5000, some 0⟩]
    { initialState with estimatedDeviceMemoryGB := some 4 } "big-q4f16_1-MLC"
    5000 4 (by decide) rfl (by decide) (by decide) rfl (by norm_num)
  exact ⟨h.1, h.2.2.1, h.2.2.2.1, h.2.2.2.2⟩

/-! ## C8: the catalog pipeline -/

theorem mem_insKey {a x : RegistryEntry} :
    ∀ {l : List RegistryEntry}, x ∈ insKey a l ↔ x = a ∨ x ∈ l := by
  intro l
  induction l with
  | nil => simp [insKey]
  | cons b t ih =>
    simp only [insKey]
    split
    · simp [List.mem_cons]
    · simp only [List.mem_cons, ih]
      tauto

theorem insKey_of_le {a : RegistryEntry} {l : List RegistryEntry}
    (h : ∀ x ∈ l, vramKey a ≤ vramKey x) : insKey a l = a :: l := by
  cases l with
  | nil => rfl
  | cons b t =>
    simp only [insKey]
    rw [if_pos (h b (List.mem_cons_self b t))]

theorem pairwise_insKey {a : RegistryEntry} {l : List RegistryEntry}
    (h : l.Pairwise (fun x y => vramKey x ≤ vramKey y)) :
    (insKey a l).Pairwise (fun x y => vramKey x ≤ vramKey y) := by
  induction l with
  | nil => simp [insKey]
  | cons b t ih =>
    rw [List.pairwise_cons] at h
    simp only [insKey]
    split
    case isTrue hab =>
      rw [List.pairwise_cons]
      refine ⟨fun x hx => ?_, ?_⟩
      · rcases List.mem_cons.mp hx with rfl | hx2
        · exact hab
        · exact le_trans hab (h.1 x hx2)
      · rw [List.pairwise_cons]
        exact h
    case isFalse hab =>
      rw [List.pairwise_cons]
      refine ⟨fun x hx => ?_, ih h.2⟩
      rcases mem_insKey.mp hx with rfl | hx2
      · exact le_of_not_le hab
      · exact h.1 x hx2

theorem pairwise_isortKey (l : List RegistryEntry) :
    (isortKey l).Pairwise (fun x y => vramKey x ≤ vramKey y) := by
  induction l with
  | nil => simp [isortKey]
  | cons a t ih =>
    simp only [isortKey]
    exact pairwise_insKey ih

theorem filter_insKey (p : RegistryEntry → Bool) (a : RegistryEntry) :
    ∀ {l : List RegistryEntry}, l.Pairwise (fun x y => vramKey x ≤ vramKey y) →
      (insKey a l).filter p = if p a then insKey a (l.filter p) else l.filter p := by
  intro l
  induction l with
  | nil =>
    intro _
    by_cases hpa : p a = true <;> simp [insKey, List.filter, hpa]
  | cons b t ih =>
    intro h
    rw [List.pairwise_cons] at h
    simp only [insKey]
    by_cases hab : vramKey a ≤ vramKey b
    · rw [if_pos hab]
      by_cases hpa : p a = true
      · by_cases hpb : p b = true
        · simp [List.filter_cons, hpa, hpb, insKey, hab]
        · have hle : ∀ x ∈ t.filter p, vramKey a ≤ vramKey x := fun x hx =>
            le_trans hab (h.1 x (List.mem_of_mem_filter hx))
          simp [List.filter_cons, hpa, hpb, insKey_of_le hle]
      · simp [List.filter_cons, hpa]
    · rw [if_neg hab]
      by_cases hpb : p b = true
      · by_cases hpa : p a = true
        · simp [List.filter_cons, hpb, hpa, ih h.2, insKey, hab]
        · simp [List.filter_cons, hpb, hpa, ih h.2]
      · by_cases hpa : p a = true
        · simp [List.filter_cons, hpb, hpa, ih h.2]
        · simp [List.filter_cons, hpb, hpa, ih h.2]

theorem filter_isortKey (p : RegistryEntry → Bool) (l : List RegistryEntry) :
    (isortKey l).filter p = isortKey (l.filter p) := by
  induction l with
  | nil => rfl
  | cons a t ih =>
    simp only [isortKey]
    rw [filter_insKey p a (pairwise_isortKey t), ih, List.filter_cons]
    by_cases hpa : p a = true
    · rw [if_pos hpa, if_pos hpa]
      simp [isortKey]
    · rw [if_neg hpa, if_neg hpa]

theorem modelFilterPred_eq_claim (m : RegistryEntry) :
    modelFilterPred m = modelClaimPred m := by
  unfold modelFilterPred modelClaimPred
  cases hv : m.vram_required_MB with
  | none => rfl
  | some v =>
    by_cases h0 : (0 : Rat) < v
    · simp [h0, ne_of_gt h0]
    · simp [h0]

/-- C8: `prepareModels` yields exactly the registry entries whose requirement
is present, positive and under the ceiling, whose type tag is not the
excluded one and whose id contains the quantization substring, ordered by
ascending requirement with ties in original registry order (that is, the
stable sort of the filtered registry), each mapped to `{id, displayName}`
with the requirement embedded; the sorted filtered list is ascending in the
requirement key. -/
theorem prepareModels_matches_claim (registry : List RegistryEntry) :
    prepareModels registry = prepareModelsOrderedSpec registry
    ∧ ((isortKey registry).filter modelFilterPred).Pairwise
        (fun x y => vramKey x ≤ vramKey y) := by
  constructor
  · unfold prepareModels prepareModelsOrderedSpec
    rw [filter_isortKey]
    rw [List.filter_congr (fun m _ => modelFilterPred_eq_claim m)]
  · exact List.Pairwise.filter _ (pairwise_isortKey registry)

/-! ## C2: the superseded-load race -/

/-- Characterization of a `loadModel` call that starts engine initialization:
it reached the commit block, whose record is fully determined, and the
resulting compatibility error is falsy. -/
theorem loadModel_started (registry : List RegistryEntry) (s : SessionState)
    (modelId : String) :
    (loadModel registry s modelId).2 = true →
    ∃ v : Rat,
      (registry.find? (fun m => m.model_id = modelId)).bind (fun m => m.vram_required_MB)
        = some v
      ∧ (loadModel registry s modelId).1 = { s with
          selectedModelVramRequirementMB := some v,
          compatibilityError :=
            if startsWithInsufficient s.compatibilityError then none
            else s.compatibilityError,
          modelLoadError := none, chatError := none,
          selectedModelId := modelId,
          engineStatus := "Loading " ++ modelId ++ "...",
          engineProgress := 0, messages := [],
          modelLoadTimeMs := none, isGenerating := false }
      ∧ jsTruthyStrOpt (loadModel registry s modelId).1.compatibilityError = false := by
  simp only [loadModel]
  split
  next hG1 => simp
  next hG1 =>
    split
    next hW => simp
    next hW =>
      split
      next heq => simp
      next v heq =>
        split
        next hv0 => simp
        next hv0 =>
          have hcompat : jsTruthyStrOpt
              (if startsWithInsufficient s.compatibilityError then none
               else s.compatibilityError) = false := by
            by_cases hsi : startsWithInsufficient s.compatibilityError = true
            · simp [hsi, jsTruthyStrOpt]
            · simp only [Bool.not_eq_true] at hsi
              simp only [hsi, Bool.not_false, Bool.and_true] at hG1
              simp [hsi, hG1]
          split
          next g hmem =>
            split
            next hgt => simp
            next hgt =>
              intro _
              exact ⟨v, heq, rfl, hcompat⟩
          next hmem =>
            intro _
            exact ⟨v, heq, rfl, hcompat⟩

/-- The progress callback never writes these fields. -/
theorem cb_preserves (sel : String) (s : SessionState) (r : InitProgressReport) :
    (initProgressCallback sel s r).selectedModelId = s.selectedModelId
    ∧ (initProgressCallback sel s r).modelLoadTimeMs = s.modelLoadTimeMs
    ∧ (initProgressCallback sel s r).modelLoadError = s.modelLoadError
    ∧ (initProgressCallback sel s r).compatibilityError = s.compatibilityError
    ∧ (initProgressCallback sel s r).engine = s.engine
    ∧ (initProgressCallback sel s r).unloaded = s.unloaded := by
  unfold initProgressCallback
  repeat' split
  all_goals simp

theorem cbFoldl_preserves (sel : String) (reports : List InitProgressReport) :
    ∀ s : SessionState,
      (reports.foldl (initProgressCallback sel) s).selectedModelId = s.selectedModelId
      ∧ (reports.foldl (initProgressCallback sel) s).modelLoadTimeMs = s.modelLoadTimeMs
      ∧ (reports.foldl (initProgressCallback sel) s).modelLoadError = s.modelLoadError
      ∧ (reports.foldl (initProgressCallback sel) s).compatibilityError = s.compatibilityError
      ∧ (reports.foldl (initProgressCallback sel) s).engine = s.engine
      ∧ (reports.foldl (initProgressCallback sel) s).unloaded = s.unloaded := by
  induction reports with
  | nil => intro s; exact ⟨rfl, rfl, rfl, rfl, rfl, rfl⟩
  | cons r rs ih =>
    intro s
    simp only [List.foldl_cons]
    have h1 := cb_preserves sel s r
    have h2 := ih (initProgressCallback sel s r)
    exact ⟨h2.1.trans h1.1, h2.2.1.trans h1.2.1, h2.2.2.1.trans h1.2.2.1,
           h2.2.2.2.1.trans h1.2.2.2.1, h2.2.2.2.2.1.trans h1.2.2.2.2.1,
           h2.2.2.2.2.2.trans h1.2.2.2.2.2⟩

/-- Releasing the previous engine handle touches only `engine`/`unloaded`. -/
theorem engineInitStart_preserves (s : SessionState) :
    (engineInitStart s).selectedModelId = s.selectedModelId
    ∧ (engineInitStart s).modelLoadTimeMs = s.modelLoadTimeMs
    ∧ (engineInitStart s).modelLoadError = s.modelLoadError
    ∧ (engineInitStart s).compatibilityError = s.compatibilityError := by
  unfold engineInitStart
  split <;> simp

/-- The state of B's load attempt at the moment A's engine creation resolves:
loadModel(A), A's engine-init head, loadModel(B), B's engine-init head, then
any sequence of B-attempt progress callbacks. -/
def raceSCb (registry : List RegistryEntry) (s0 : SessionState) (A B : String)
    (reports : List InitProgressReport) : SessionState :=
  reports.foldl (initProgressCallback B)
    (engineInitStart (loadModel registry (engineInitStart (loadModel registry s0 A).1) B).1)

/-- The state just after A's (stale) engine creation resolves. -/
def raceAfterA (registry : List RegistryEntry) (s0 : SessionState) (A B : String)
    (hA : Nat) (durA : Rat) (reports : List InitProgressReport) : SessionState :=
  engineCreateResolve (raceSCb registry s0 A B reports) A hA durA

/-- The state after B's engine creation subsequently resolves. -/
def raceAfterB (registry : List RegistryEntry) (s0 : SessionState) (A B : String)
    (hA hB : Nat) (durA durB : Rat) (reports : List InitProgressReport) : SessionState :=
  engineCreateResolve (raceAfterA registry s0 A B hA durA reports) B hB durB

/-- C2: if loadModel(A) starts engine initialization and loadModel(B) then
also starts before A resolves, then when A's creation resolves the only
effects are recording A's fresh handle and unloading it — the observable
state (selection, status, progress, load time) still reflects B's pending
attempt — and when B's creation later resolves, B is committed and B's
handle, not A's, is the session engine. -/
theorem stale_load_suppression
    (registry : List RegistryEntry) (s0 : SessionState) (A B : String)
    (hA hB : Nat) (durA durB : Rat) (reports : List InitProgressReport)
    (hAB : A ≠ B) (hhAB : hA ≠ hB)
    (h1 : (loadModel registry s0 A).2 = true)
    (h2 : (loadModel registry (engineInitStart (loadModel registry s0 A).1) B).2 = true) :
    raceAfterA registry s0 A B hA durA reports
      = { raceSCb registry s0 A B reports with
          engine := some hA,
          unloaded := hA :: (raceSCb registry s0 A B reports).unloaded }
    ∧ (raceAfterA registry s0 A B hA durA reports).selectedModelId = B
    ∧ (raceAfterA registry s0 A B hA durA reports).modelLoadTimeMs = none
    ∧ (raceAfterA registry s0 A B hA durA reports).engineStatus
        = (raceSCb registry s0 A B reports).engineStatus
    ∧ (raceAfterA registry s0 A B hA durA reports).engineProgress
        = (raceSCb registry s0 A B reports).engineProgress
    ∧ hA ∈ (raceAfterA registry s0 A B hA durA reports).unloaded
    ∧ (raceAfterB registry s0 A B hA hB durA durB reports).engine = some hB
    ∧ (raceAfterB registry s0 A B hA hB durA durB reports).engine ≠ some hA
    ∧ (raceAfterB registry s0 A B hA hB durA durB reports).selectedModelId = B
    ∧ (raceAfterB registry s0 A B hA hB durA durB reports).modelLoadTimeMs = some durB
    ∧ (raceAfterB registry s0 A B hA hB durA durB reports).engineProgress = 1
    ∧ (raceAfterB registry s0 A B hA hB durA durB reports).engineStatus
        = B ++ " loaded. Ready."
    ∧ hA ∈ (raceAfterB registry s0 A B hA hB durA durB reports).unloaded := by
  obtain ⟨vB, hfindB, hstB, hcompatB⟩ := loadModel_started registry _ B h2
  have hinit := engineInitStart_preserves
    (loadModel registry (engineInitStart (loadModel registry s0 A).1) B).1
  have hfold := cbFoldl_preserves B reports
    (engineInitStart (loadModel registry (engineInitStart (loadModel registry s0 A).1) B).1)
  have hsel : (raceSCb registry s0 A B reports).selectedModelId = B := by
    unfold raceSCb
    rw [hfold.1, hinit.1, hstB]
  have hmlt : (raceSCb registry s0 A B reports).modelLoadTimeMs = none := by
    unfold raceSCb
    rw [hfold.2.1, hinit.2.1, hstB]
  have hmle : (raceSCb registry s0 A B reports).modelLoadError = none := by
    unfold raceSCb
    rw [hfold.2.2.1, hinit.2.2.1, hstB]
  have hcompat : jsTruthyStrOpt (raceSCb registry s0 A B reports).compatibilityError
      = false := by
    unfold raceSCb
    rw [hfold.2.2.2.1, hinit.2.2.2]
    exact hcompatB
  have hs3 : raceAfterA registry s0 A B hA durA reports
      = { raceSCb registry s0 A B reports with
          engine := some hA,
          unloaded := hA :: (raceSCb registry s0 A B reports).unloaded } := by
    have hneg : ¬((raceSCb registry s0 A B reports).selectedModelId = A
        ∧ jsTruthyStrOpt (raceSCb registry s0 A B reports).compatibilityError = false
        ∧ jsTruthyStrOpt (raceSCb registry s0 A B reports).modelLoadError = false) := by
      rintro ⟨hc, -, -⟩
      rw [hsel] at hc
      exact hAB hc.symm
    unfold raceAfterA
    simp only [engineCreateResolve]
    rw [if_neg hneg]
  have hs4 : raceAfterB registry s0 A B hA hB durA durB reports
      = { raceSCb registry s0 A B reports with
          engine := some hB,
          unloaded := hA :: (raceSCb registry s0 A B reports).unloaded,
          modelLoadTimeMs := some durB,
          engineStatus := B ++ " loaded. Ready.",
          engineProgress := 1,
          modelLoadError := none } := by
    have hpos : (raceSCb registry s0 A B reports).selectedModelId = B
        ∧ jsTruthyStrOpt (raceSCb registry s0 A B reports).compatibilityError = false
        ∧ jsTruthyStrOpt (raceSCb registry s0 A B reports).modelLoadError = false :=
      ⟨hsel, hcompat, by rw [hmle]; rfl⟩
    unfold raceAfterB
    rw [hs3]
    simp only [engineCreateResolve]
    rw [if_pos hpos]
  refine ⟨hs3, ?_, ?_, ?_, ?_, ?_, ?_, ?_, ?_, ?_, ?_, ?_, ?_⟩
  · rw [hs3]
    exact hsel
  · rw [hs3]
    exact hmlt
  · rw [hs3]
  · rw [hs3]
  · rw [hs3]
    exact List.mem_cons_self _ _
  · rw [hs4]
  · rw [hs4]
    intro hcontra
    have hx : hB = hA := Option.some.inj hcontra
    exact hhAB hx.symm
  · rw [hs4]
    exact hsel
  · rw [hs4]
  · rw [hs4]
  · rw [hs4]
  · rw [hs4]
    exact List.mem_cons_self _ _

/-- Witness for C2: two catalog models, memory estimate unavailable
(fail-open), one progress report for B's attempt; handle 7 is A's, 9 is
B's. -/
theorem stale_load_suppression_witness :
    (raceAfterA [⟨"A-q4f16_1", some 1000, some 0⟩, ⟨"B-q4f16_1", some 1200, some 0⟩]
        initialState "A-q4f16_1" "B-q4f16_1" 7 100
        [{ progress := none, text := "Fetching params [1/3]" }]).selectedModelId
      = "B-q4f16_1"
    ∧ 7 ∈ (raceAfterA [⟨"A-q4f16_1", some 1000, some 0⟩, ⟨"B-q4f16_1", some 1200, some 0⟩]
        initialState "A-q4f16_1" "B-q4f16_1" 7 100
        [{ progress := none, text := "Fetching params [1/3]" }]).unloaded
    ∧ (raceAfterB [⟨"A-q4f16_1", some 1000, some 0⟩, ⟨"B-q4f16_1", some 1200, some 0⟩]
        initialState "A-q4f16_1" "B-q4f16_1" 7 9 100 200
        [{ progress := none, text := "Fetching params [1/3]" }]).engine = some 9
    ∧ (raceAfterB [⟨"A-q4f16_1", some 1000, some 0⟩, ⟨"B-q4f16_1", some 1200, some 0⟩]
        initialState "A-q4f16_1" "B-q4f16_1" 7 9 100 200
        [{ progress := none, text := "Fetching params [1/3]" }]).engineProgress = 1 := by
  have h := stale_load_suppression
    [⟨"A-q4f16_1", some 1000, some 0⟩, ⟨"B-q4f16_1", some 1200, some 0⟩]
    initialState "A-q4f16_1" "B-q4f16_1" 7 9 100 200
    [{ progress := none, text := "Fetching params [1/3]" }]
    (by decide) (by decide) (by decide) (by decide)
  exact ⟨h.2.1, h.2.2.2.2.2.1, h.2.2.2.2.2.2.1, h.2.2.2.2.2.2.2.2.2.2.1⟩

end WebllmStore







